import Mathlib

/-!
Verification development for `bert_gan.py` (MUSE adversarial BERT alignment).

The Python source is shallowly embedded: stateful training loops become
trace-producing functions, floating point configuration values become
rationals (written with `mkRat` so they evaluate), Python `assert`
statements and runtime name errors become explicit error values.  Every
definition mirrors the control flow of the source file.
-/

namespace BertGan

/-- Configuration record mirroring the `argparse` surface of `bert_gan.py`
(only the fields the verified properties need).  Floats are modelled as
rationals, ints as integers, optional string arguments as `Option String`. -/
structure Args where
  dis_dropout : ℚ
  dis_input_dropout : ℚ
  dis_smooth : ℚ
  dis_lambda : ℚ
  dis_steps : ℤ
  lr_shrink : ℚ
  min_lr : ℚ
  adversarial : Bool
  model_path : Option String
  input_file : Option String
  n_epochs : ℤ
  n_refinement : ℤ
  pred : Bool
  src_file : Option String
  output_file : Option String
deriving DecidableEq

/-- Observable side effects performed by `AdvBert.__init__` (lines 105-126),
in program order: `initialize_exp`, the adversarial-branch dataset `load`,
`build_model`, the `BertTrainer` construction, the `BertEvaluator`
construction. -/
inductive InitEvent
  | initExp
  | loadDataset
  | buildModel
  | buildTrainer
  | buildEvaluator
deriving DecidableEq

/-- Ways `AdvBert.__init__` can raise: one per `assert` statement (lines
109-115 and 119), the `TypeError` from `os.path.isfile(None)` when
`--input_file` was not given, and the `AttributeError` raised at line 125
when `self.dataset` was never assigned (non-adversarial construction). -/
inductive InitError
  | assertDisDropout
  | assertDisInputDropout
  | assertDisSmooth
  | assertDisLambdaSteps
  | assertLrShrink
  | assertModelPath
  | assertInputFile
  | typeErrorIsFileNone
  | attributeErrorDataset
deriving DecidableEq

/-- Embedding of `AdvBert.__init__` (lines 105-126).  Returns the list of
side-effecting construction steps performed, in order, together with the
error that aborted construction (`none` on success).  `isFile` models
`os.path.isfile` on the ambient file system.  Each `if c then … else fail`
mirrors `assert c`; `mkRat 1 2` is the literal `0.5` of line 111. -/
def initRun (args : Args) (isFile : String → Bool) : List InitEvent × Option InitError :=
  if 0 ≤ args.dis_dropout ∧ args.dis_dropout < 1 then
    if 0 ≤ args.dis_input_dropout ∧ args.dis_input_dropout < 1 then
      if 0 ≤ args.dis_smooth ∧ args.dis_smooth < mkRat 1 2 then
        if 0 < args.dis_lambda ∧ 0 < args.dis_steps then
          if 0 < args.lr_shrink ∧ args.lr_shrink ≤ 1 then
            if args.adversarial ∧ args.model_path = none then
              ([], some .assertModelPath)
            else if args.adversarial then
              match args.input_file with
              | none => ([.initExp], some .typeErrorIsFileNone)
              | some f =>
                if isFile f then
                  ([.initExp, .loadDataset, .buildModel, .buildTrainer,
                    .buildEvaluator], none)
                else
                  ([.initExp], some .assertInputFile)
            else
              ([.initExp, .buildModel], some .attributeErrorDataset)
          else ([], some .assertLrShrink)
        else ([], some .assertDisLambdaSteps)
      else ([], some .assertDisSmooth)
    else ([], some .assertDisInputDropout)
  else ([], some .assertDisDropout)

/-- A configuration violating at least one of the documented ranges checked
by the asserts at lines 109-113: dropout rates outside `[0,1)`, smoothing
outside `[0,0.5)`, `dis_lambda ≤ 0`, `dis_steps ≤ 0`, or `lr_shrink`
outside `(0,1]`. -/
def configOutOfRange (args : Args) : Prop :=
  ¬ (0 ≤ args.dis_dropout ∧ args.dis_dropout < 1) ∨
  ¬ (0 ≤ args.dis_input_dropout ∧ args.dis_input_dropout < 1) ∨
  ¬ (0 ≤ args.dis_smooth ∧ args.dis_smooth < mkRat 1 2) ∨
  args.dis_lambda ≤ 0 ∨ args.dis_steps ≤ 0 ∨
  ¬ (0 < args.lr_shrink ∧ args.lr_shrink ≤ 1)

instance (args : Args) : Decidable (configOutOfRange args) := by
  unfold configOutOfRange; infer_instance

/-- C2: any configuration with `dis_dropout` outside `[0,1)`,
`dis_input_dropout` outside `[0,1)`, `dis_smooth` outside `[0,0.5)`,
`dis_lambda ≤ 0`, `dis_steps ≤ 0`, or `lr_shrink` outside `(0,1]` makes
`AdvBert.__init__` fail, and it fails before any construction step runs —
in particular before any batch is processed or training work starts. -/
theorem C2_out_of_range_config_fails_fast (args : Args) (isFile : String → Bool)
    (h : configOutOfRange args) :
    (initRun args isFile).2 ≠ none ∧ (initRun args isFile).1 = [] := by
  by_cases h1 : 0 ≤ args.dis_dropout ∧ args.dis_dropout < 1
  case neg => simp [initRun, h1]
  by_cases h2 : 0 ≤ args.dis_input_dropout ∧ args.dis_input_dropout < 1
  case neg => simp [initRun, h1, h2]
  by_cases h3 : 0 ≤ args.dis_smooth ∧ args.dis_smooth < mkRat 1 2
  case neg => simp [initRun, h1, h2, h3]
  by_cases h4 : 0 < args.dis_lambda ∧ 0 < args.dis_steps
  case neg => simp [initRun, h1, h2, h3, h4]
  by_cases h5 : 0 < args.lr_shrink ∧ args.lr_shrink ≤ 1
  case neg => simp [initRun, h1, h2, h3, h4, h5]
  exfalso
  rcases h with hb | hb | hb | hb | hb | hb
  · exact hb h1
  · exact hb h2
  · exact hb h3
  · exact absurd h4.1 (not_lt.mpr hb)
  · exact absurd h4.2 (not_lt.mpr hb)
  · exact hb h5

/-- Concrete out-of-range configuration (`dis_lambda = 0`) used to witness
C2. -/
def badLambdaArgs : Args :=
  { dis_dropout := 0, dis_input_dropout := mkRat 1 10, dis_smooth := mkRat 1 10,
    dis_lambda := 0, dis_steps := 5, lr_shrink := mkRat 1 2,
    min_lr := mkRat 1 1000000, adversarial := true, model_path := some "m",
    input_file := some "c", n_epochs := 10, n_refinement := 0, pred := false,
    src_file := none, output_file := none }

/-- Witness for C2 at a concrete out-of-range configuration. -/
theorem C2_out_of_range_config_fails_fast_witness :
    configOutOfRange badLambdaArgs ∧
    (initRun badLambdaArgs (fun _ => true)).2 ≠ none ∧
    (initRun badLambdaArgs (fun _ => true)).1 = [] :=
  ⟨by decide, C2_out_of_range_config_fails_fast badLambdaArgs (fun _ => true) (by decide)⟩

/-- Observable events of `AdvBert.train_adv` (lines 133-194).  Batch events
carry the epoch number and the value of the `n_dis_step` counter after its
increment at line 161 (so `i` is the 1-based batch index within the epoch);
the end-of-epoch events carry the `sent_sim` score of line 182. -/
inductive Event
  | disStep (epoch i : ℕ)
  | mapStep (epoch i : ℕ)
  | evalSentSim (epoch : ℕ) (score : ℚ)
  | evalDis (epoch : ℕ)
  | saveBest (epoch : ℕ) (score : ℚ)
  | updateLr (epoch : ℕ) (score : ℚ)
deriving DecidableEq

/-- Recognizer for discriminator-step events. -/
def Event.isDisStep : Event → Bool
  | .disStep _ _ => true
  | _ => false

/-- Recognizer for mapping-step events. -/
def Event.isMapStep : Event → Bool
  | .mapStep _ _ => true
  | _ => false

/-- Recognizer for batch-level (discriminator or mapping) step events. -/
def Event.isStepEvent : Event → Bool
  | .disStep _ _ => true
  | .mapStep _ _ => true
  | _ => false

/-- Recognizer for the per-epoch `sent_sim` evaluation event. -/
def Event.isEvalSentSim : Event → Bool
  | .evalSentSim _ _ => true
  | _ => false

/-- Events of one loop-body iteration of `train_adv` (lines 151-164): a
`dis_step`, then — because `n_dis_step` was just incremented to `i` — a
`mapping_step` exactly when `i % dis_steps == 0` (line 162). -/
def batchEvents (K epoch i : ℕ) : List Event :=
  Event.disStep epoch i :: (if i % K = 0 then [Event.mapStep epoch i] else [])

/-- Events of the first `n` batches of an epoch, in order.  The counter
`n_dis_step` starts at 0 at each epoch boundary (line 148), so batch `b`
(0-based) runs with counter value `b+1`. -/
def epochBatchTrace (K epoch : ℕ) : ℕ → List Event
  | 0 => []
  | n+1 => epochBatchTrace K epoch n ++ batchEvents K epoch (n+1)

theorem batchEvents_countP_dis (K epoch i : ℕ) :
    (batchEvents K epoch i).countP Event.isDisStep = 1 := by
  unfold batchEvents
  split <;> rfl

theorem batchEvents_countP_map (K epoch i : ℕ) :
    (batchEvents K epoch i).countP Event.isMapStep =
      if i % K = 0 then 1 else 0 := by
  by_cases hd : i % K = 0
  · rw [batchEvents, if_pos hd, if_pos hd]; rfl
  · rw [batchEvents, if_neg hd, if_neg hd]; rfl

theorem epochBatchTrace_countP_dis (K epoch : ℕ) :
    ∀ n, (epochBatchTrace K epoch n).countP Event.isDisStep = n := by
  intro n
  induction n with
  | zero => rfl
  | succ n ih =>
    rw [epochBatchTrace, List.countP_append, ih, batchEvents_countP_dis]

theorem epochBatchTrace_countP_map (K epoch : ℕ) :
    ∀ n, (epochBatchTrace K epoch n).countP Event.isMapStep = n / K := by
  intro n
  induction n with
  | zero => simp [epochBatchTrace]
  | succ n ih =>
    rw [epochBatchTrace, List.countP_append, ih, batchEvents_countP_map, Nat.succ_div]
    congr 1
    by_cases hd : (n + 1) % K = 0
    · rw [if_pos hd, if_pos (Nat.dvd_of_mod_eq_zero hd)]
    · have hnd : ¬ K ∣ (n + 1) := by
        rintro ⟨c, hc⟩
        exact hd (by rw [hc]; exact Nat.mul_mod_right K c)
      rw [if_neg hd, if_neg hnd]

theorem epochBatchTrace_split (K epoch : ℕ) {i n : ℕ} (h : i ≤ n) :
    ∃ r, epochBatchTrace K epoch n = epochBatchTrace K epoch i ++ r := by
  induction n with
  | zero =>
    have : i = 0 := Nat.le_zero.mp h
    subst this
    exact ⟨[], by simp [epochBatchTrace]⟩
  | succ n ih =>
    rcases Nat.lt_or_ge i (n+1) with hlt | hge
    · obtain ⟨r, hr⟩ := ih (Nat.lt_succ_iff.mp hlt)
      exact ⟨r ++ batchEvents K epoch (n+1), by
        rw [epochBatchTrace, hr, List.append_assoc]⟩
    · have : i = n + 1 := le_antisymm h hge
      subst this
      exact ⟨[], by simp⟩

theorem mapStep_mem_epochBatchTrace (K epoch : ℕ) :
    ∀ n i, Event.mapStep epoch i ∈ epochBatchTrace K epoch n ↔
      (1 ≤ i ∧ i ≤ n ∧ i % K = 0) := by
  intro n
  induction n with
  | zero =>
    intro i
    simp only [epochBatchTrace, List.not_mem_nil, false_iff]
    omega
  | succ n ih =>
    intro i
    have hb : (Event.mapStep epoch i ∈ batchEvents K epoch (n+1)) ↔
        (i = n + 1 ∧ (n + 1) % K = 0) := by
      unfold batchEvents
      split <;> simp_all
    rw [epochBatchTrace, List.mem_append, ih, hb]
    constructor
    · rintro (⟨ha, hb', hc⟩ | ⟨rfl, hc⟩)
      · exact ⟨ha, by omega, hc⟩
      · exact ⟨by omega, le_refl _, hc⟩
    · rintro ⟨ha, hb', hc⟩
      rcases Nat.lt_or_ge i (n+1) with hlt | hge
      · exact Or.inl ⟨ha, by omega, hc⟩
      · have : i = n + 1 := by omega
        subst this
        exact Or.inr ⟨rfl, hc⟩

/-- C1: in every adversarial epoch, one `dis_step` runs per batch; a
`mapping_step` runs exactly after the `i`-th `dis_step` when `K ∣ i`
(`K` = `dis_steps`); since the `n_dis_step` counter restarts at 0 each
epoch, the number of mapping steps in an epoch of `nBatches` batches is
`nBatches / K` (integer division). -/
theorem C1_dis_map_step_cadence (K nBatches epoch : ℕ) (hK : 0 < K) :
    (epochBatchTrace K epoch nBatches).countP Event.isDisStep = nBatches ∧
    (epochBatchTrace K epoch nBatches).countP Event.isMapStep = nBatches / K ∧
    (∀ i, Event.mapStep epoch i ∈ epochBatchTrace K epoch nBatches ↔
      (1 ≤ i ∧ i ≤ nBatches ∧ i % K = 0)) ∧
    (∀ i, 1 ≤ i → i ≤ nBatches → i % K = 0 →
      ∃ l r, epochBatchTrace K epoch nBatches =
        l ++ [Event.disStep epoch i, Event.mapStep epoch i] ++ r) := by
  refine ⟨epochBatchTrace_countP_dis K epoch nBatches,
          epochBatchTrace_countP_map K epoch nBatches,
          mapStep_mem_epochBatchTrace K epoch nBatches, ?_⟩
  intro i h1 h2 h3
  obtain ⟨j, rfl⟩ : ∃ j, i = j + 1 := ⟨i - 1, by omega⟩
  obtain ⟨r, hr⟩ := epochBatchTrace_split K epoch h2
  refine ⟨epochBatchTrace K epoch j, r, ?_⟩
  rw [hr, epochBatchTrace]
  unfold batchEvents
  rw [if_pos h3]

/-- Witness for C1 at `K = 2`, `nBatches = 5`, epoch 0. -/
theorem C1_dis_map_step_cadence_witness :
    0 < 2 ∧
    ((epochBatchTrace 2 0 5).countP Event.isDisStep = 5 ∧
     (epochBatchTrace 2 0 5).countP Event.isMapStep = 5 / 2 ∧
     (∀ i, Event.mapStep 0 i ∈ epochBatchTrace 2 0 5 ↔
       (1 ≤ i ∧ i ≤ 5 ∧ i % 2 = 0)) ∧
     (∀ i, 1 ≤ i → i ≤ 5 → i % 2 = 0 →
       ∃ l r, epochBatchTrace 2 0 5 =
         l ++ [Event.disStep 0 i, Event.mapStep 0 i] ++ r)) :=
  ⟨by decide, C1_dis_map_step_cadence 2 5 0 (by decide)⟩

/-- Events of one full epoch of `train_adv` (lines 143-194): all batch
events, then the single `sent_sim` evaluation (line 182), the
discriminator diagnostic (line 183), `save_best` with the same score
(line 187), and `update_lr` with the same score (line 191).  `score e`
abstracts the value returned by `self.evaluator.sent_sim` in epoch `e`. -/
def epochTrace (K nBatches : ℕ) (score : ℕ → ℚ) (epoch : ℕ) : List Event :=
  epochBatchTrace K epoch nBatches ++
    [Event.evalSentSim epoch (score epoch), Event.evalDis epoch,
     Event.saveBest epoch (score epoch), Event.updateLr epoch (score epoch)]

/-- Epoch indices actually executed, starting from epoch `s` with `r`
epochs remaining in `range(n_epochs)`.  After each epoch the loop breaks
when the mapping optimizer's learning rate has fallen below `min_lr`
(lines 192-194); `lrAfter e` abstracts
`self.trainer.map_optimizer.param_groups[0]['lr']` as observed right after
epoch `e`'s `update_lr` call. -/
def epochsFrom (lrAfter : ℕ → ℚ) (min_lr : ℚ) : ℕ → ℕ → List ℕ
  | _, 0 => []
  | s, r+1 =>
    s :: (if lrAfter s < min_lr then [] else epochsFrom lrAfter min_lr (s+1) r)

/-- The epochs executed by `train_adv`'s `for n_epoch in range(n_epochs)`
loop with the early `break` of line 194. -/
def executedEpochs (nEpochs : ℕ) (lrAfter : ℕ → ℚ) (min_lr : ℚ) : List ℕ :=
  epochsFrom lrAfter min_lr 0 nEpochs

/-- The full event trace of `AdvBert.train_adv`. -/
def advTrace (K nBatches nEpochs : ℕ) (score lrAfter : ℕ → ℚ) (min_lr : ℚ) :
    List Event :=
  (executedEpochs nEpochs lrAfter min_lr).flatMap (epochTrace K nBatches score)

theorem epochsFrom_mem (lrAfter : ℕ → ℚ) (min_lr : ℚ) :
    ∀ r s e, e ∈ epochsFrom lrAfter min_lr s r ↔
      (s ≤ e ∧ e < s + r ∧ ∀ k, s ≤ k → k < e → ¬ lrAfter k < min_lr) := by
  intro r
  induction r with
  | zero =>
    intro s e
    simp only [epochsFrom, List.not_mem_nil, false_iff]
    intro h
    omega
  | succ r ih =>
    intro s e
    rw [epochsFrom]
    by_cases hlr : lrAfter s < min_lr
    · rw [if_pos hlr]
      simp only [List.mem_singleton]
      constructor
      · rintro rfl
        exact ⟨le_refl _, by omega, fun k hk1 hk2 => absurd hk1 (by omega)⟩
      · rintro ⟨h1, h2, h3⟩
        by_contra hne
        exact h3 s (le_refl s) (by omega) hlr
    · rw [if_neg hlr]
      simp only [List.mem_cons, ih]
      constructor
      · rintro (rfl | ⟨h1, h2, h3⟩)
        · exact ⟨le_refl _, by omega, fun k hk1 hk2 => absurd hk1 (by omega)⟩
        · refine ⟨by omega, by omega, fun k hk1 hk2 => ?_⟩
          rcases Nat.lt_or_ge k (s+1) with hk | hk
          · have : k = s := by omega
            subst this
            exact hlr
          · exact h3 k hk hk2
      · rintro ⟨h1, h2, h3⟩
        rcases Nat.eq_or_lt_of_le h1 with rfl | hlt
        · exact Or.inl rfl
        · exact Or.inr ⟨by omega, by omega, fun k hk1 hk2 => h3 k (by omega) hk2⟩

/-- C3: epoch `e+1` of `train_adv` executes exactly when it is within
`range(n_epochs)` and no earlier epoch left the mapping optimizer's
learning rate below `min_lr` after its `update_lr` call; epoch 0 executes
exactly when `n_epochs > 0`.  So epochs never continue once the learning
rate has dropped below the floor, and otherwise the next epoch proceeds. -/
theorem C3_lr_floor_stops_training (nEpochs : ℕ) (lrAfter : ℕ → ℚ)
    (min_lr : ℚ) (e : ℕ) :
    ((e + 1) ∈ executedEpochs nEpochs lrAfter min_lr ↔
      (e + 1 < nEpochs ∧ ∀ k ≤ e, ¬ lrAfter k < min_lr)) ∧
    (0 ∈ executedEpochs nEpochs lrAfter min_lr ↔ 0 < nEpochs) := by
  constructor
  · rw [executedEpochs, epochsFrom_mem]
    constructor
    · rintro ⟨h1, h2, h3⟩
      exact ⟨by omega, fun k hk => h3 k (by omega) (by omega)⟩
    · rintro ⟨h1, h2⟩
      exact ⟨by omega, by omega, fun k hk1 hk2 => h2 k (by omega)⟩
  · rw [executedEpochs, epochsFrom_mem]
    constructor
    · rintro ⟨h1, h2, h3⟩
      omega
    · intro h
      exact ⟨le_refl _, by omega, fun k hk1 hk2 => absurd hk1 (by omega)⟩

/-- C4: each epoch of `train_adv` evaluates `sent_sim` exactly once, after
all of the epoch's batch steps, and the resulting score value is passed
first to `save_best` and then to `update_lr`, in that order, at the end
of the epoch. -/
theorem C4_single_eval_drives_save_then_lr (K nBatches : ℕ) (score : ℕ → ℚ)
    (e : ℕ) :
    (epochTrace K nBatches score e).countP Event.isEvalSentSim = 1 ∧
    ∃ pre, epochTrace K nBatches score e =
        pre ++ [Event.evalSentSim e (score e), Event.evalDis e,
                Event.saveBest e (score e), Event.updateLr e (score e)] ∧
      ∀ x ∈ pre, x.isStepEvent = true := by
  refine ⟨?_, epochBatchTrace K e nBatches, rfl, ?_⟩
  · rw [epochTrace, List.countP_append]
    have hz : (epochBatchTrace K e nBatches).countP Event.isEvalSentSim = 0 := by
      induction nBatches with
      | zero => rfl
      | succ n ih =>
        rw [epochBatchTrace, List.countP_append, ih]
        unfold batchEvents
        split <;> rfl
    rw [hz]
    rfl
  · intro x hx
    induction nBatches with
    | zero => simp [epochBatchTrace] at hx
    | succ n ih =>
      rw [epochBatchTrace, List.mem_append] at hx
      rcases hx with hx | hx
      · exact ih hx
      · unfold batchEvents at hx
        rcases List.mem_cons.mp hx with rfl | hx
        · rfl
        · split at hx
          · rcases List.mem_singleton.mp hx with rfl
            rfl
          · simp at hx

/-- Observable events of `AdvBert.refine` (lines 196-218): the initial
`reload_best` (line 203) and, per iteration, `procrustes` (line 211), the
single `sent_sim` evaluation (line 213) and `save_best` with that score
(line 217). -/
inductive REvent
  | reloadBest
  | procrustes (i : ℕ)
  | evalSentSim (i : ℕ) (score : ℚ)
  | saveBest (i : ℕ) (score : ℚ)
deriving DecidableEq

/-- Recognizer for the `reload_best` event. -/
def REvent.isReloadBest : REvent → Bool
  | .reloadBest => true
  | _ => false

/-- Recognizer for Procrustes-solve events. -/
def REvent.isProcrustes : REvent → Bool
  | .procrustes _ => true
  | _ => false

/-- Recognizer for the per-iteration `sent_sim` evaluation event. -/
def REvent.isEvalSentSim : REvent → Bool
  | .evalSentSim _ _ => true
  | _ => false

/-- Events of the first `n` refinement iterations (0-based, in order of
`for n_iter in range(self.args.n_refinement)`).  `score i` abstracts the
`sent_sim` value computed in iteration `i`. -/
def refineIterTrace (score : ℕ → ℚ) : ℕ → List REvent
  | 0 => []
  | n+1 => refineIterTrace score n ++
      [REvent.procrustes n, REvent.evalSentSim n (score n),
       REvent.saveBest n (score n)]

/-- The full event trace of `AdvBert.refine` with `n` configured
refinement iterations: `reload_best` once, then the iterations; the loop
body contains no `break`, so there is no early exit. -/
def refineTrace (n : ℕ) (score : ℕ → ℚ) : List REvent :=
  REvent.reloadBest :: refineIterTrace score n

/-- Observable events of `AdvBert.pred` (lines 220-267): the `reload_best`
call of line 227 and (were it ever reached) the per-sentence record write
of line 267. -/
inductive PEvent
  | reloadBest
  | writeRecord
deriving DecidableEq

/-- Recognizer for record-write events of `pred`. -/
def PEvent.isWriteRecord : PEvent → Bool
  | .writeRecord => true
  | _ => false

/-- Ways `AdvBert.pred` can raise: the asserts of lines 224-225, or a
Python `NameError` on an unbound name. -/
inductive PError
  | assertSrcFile
  | assertOutputFile
  | nameError (n : String)
deriving DecidableEq

/-- Embedding of `AdvBert.pred` (lines 220-267): assert `src_file` and
`output_file` are given, call `reload_best`, then evaluate the call
expression `load_single(...)` of line 228 — whose callee name is bound
nowhere in the module or the function scope, so a `NameError` is raised
before any batch is read or any record is written. -/
def predRun (args : Args) : List PEvent × Option PError :=
  if args.src_file = none then ([], some .assertSrcFile)
  else if args.output_file = none then ([], some .assertOutputFile)
  else ([.reloadBest], some (.nameError "load_single"))

theorem refineIterTrace_countP_procrustes (score : ℕ → ℚ) :
    ∀ n, (refineIterTrace score n).countP REvent.isProcrustes = n := by
  intro n
  induction n with
  | zero => rfl
  | succ n ih =>
    rw [refineIterTrace, List.countP_append, ih]
    rfl

theorem refineIterTrace_countP_eval (score : ℕ → ℚ) :
    ∀ n, (refineIterTrace score n).countP REvent.isEvalSentSim = n := by
  intro n
  induction n with
  | zero => rfl
  | succ n ih =>
    rw [refineIterTrace, List.countP_append, ih]
    rfl

theorem refineIterTrace_countP_reload (score : ℕ → ℚ) :
    ∀ n, (refineIterTrace score n).countP REvent.isReloadBest = 0 := by
  intro n
  induction n with
  | zero => rfl
  | succ n ih =>
    rw [refineIterTrace, List.countP_append, ih]
    rfl

theorem refineIterTrace_split (score : ℕ → ℚ) {i n : ℕ} (h : i ≤ n) :
    ∃ r, refineIterTrace score n = refineIterTrace score i ++ r := by
  induction n with
  | zero =>
    have : i = 0 := Nat.le_zero.mp h
    subst this
    exact ⟨[], by simp [refineIterTrace]⟩
  | succ n ih =>
    rcases Nat.lt_or_ge i (n+1) with hlt | hge
    · obtain ⟨r, hr⟩ := ih (Nat.lt_succ_iff.mp hlt)
      refine ⟨r ++ [REvent.procrustes n, REvent.evalSentSim n (score n),
        REvent.saveBest n (score n)], ?_⟩
      rw [refineIterTrace, hr, List.append_assoc]
    · have : i = n + 1 := le_antisymm h hge
      subst this
      exact ⟨[], by simp⟩

/-- C5: `refine` performs `reload_best` exactly once, before all
iterations; it runs exactly `n_refinement` iterations, each consisting of
one Procrustes solve, one `sent_sim` evaluation, and one `save_best` with
that score, in order, with no early exit; and `pred` (when its file-path
preconditions hold) performs `reload_best` as its first observable action,
before any output is produced. -/
theorem C5_refine_loop_and_pred_reload (n : ℕ) (score : ℕ → ℚ) (args : Args)
    (h1 : args.src_file ≠ none) (h2 : args.output_file ≠ none) :
    (refineTrace n score).countP REvent.isReloadBest = 1 ∧
    (refineTrace n score).head? = some REvent.reloadBest ∧
    (refineTrace n score).countP REvent.isProcrustes = n ∧
    (refineTrace n score).countP REvent.isEvalSentSim = n ∧
    (∀ i, i < n → ∃ l r, refineTrace n score =
      l ++ [REvent.procrustes i, REvent.evalSentSim i (score i),
            REvent.saveBest i (score i)] ++ r) ∧
    (predRun args).1.head? = some PEvent.reloadBest ∧
    (predRun args).1.countP PEvent.isWriteRecord = 0 := by
  have hpred : predRun args = ([.reloadBest], some (.nameError "load_single")) := by
    rw [predRun, if_neg h1, if_neg h2]
  refine ⟨?_, rfl, ?_, ?_, ?_, ?_, ?_⟩
  · rw [refineTrace, List.countP_cons_of_pos _ _ (by rfl),
      refineIterTrace_countP_reload]
  · rw [refineTrace, List.countP_cons_of_neg _ _ (by simp [REvent.isProcrustes]),
      refineIterTrace_countP_procrustes]
  · rw [refineTrace, List.countP_cons_of_neg _ _ (by simp [REvent.isEvalSentSim]),
      refineIterTrace_countP_eval]
  · intro i hi
    obtain ⟨r, hr⟩ := refineIterTrace_split score (show i + 1 ≤ n by omega)
    refine ⟨REvent.reloadBest :: refineIterTrace score i, r, ?_⟩
    rw [refineTrace, hr, refineIterTrace]
    simp
  · rw [hpred]
    rfl
  · rw [hpred]
    rfl

/-- In-range configuration with `pred` inputs supplied, used as witness
input for C5 and the predict-path properties. -/
def predReadyArgs : Args :=
  { dis_dropout := 0, dis_input_dropout := mkRat 1 10, dis_smooth := mkRat 1 10,
    dis_lambda := 1, dis_steps := 5, lr_shrink := mkRat 1 2,
    min_lr := mkRat 1 1000000, adversarial := true, model_path := some "m",
    input_file := some "c", n_epochs := 10, n_refinement := 1, pred := true,
    src_file := some "s.txt", output_file := some "o.jsonl" }

/-- Witness for C5 at `n = 2` refinement iterations and concrete predict
arguments. -/
theorem C5_refine_loop_and_pred_reload_witness :
    predReadyArgs.src_file ≠ none ∧ predReadyArgs.output_file ≠ none ∧
    ((refineTrace 2 (fun _ => 0)).countP REvent.isReloadBest = 1 ∧
     (refineTrace 2 (fun _ => 0)).head? = some REvent.reloadBest ∧
     (refineTrace 2 (fun _ => 0)).countP REvent.isProcrustes = 2 ∧
     (refineTrace 2 (fun _ => 0)).countP REvent.isEvalSentSim = 2 ∧
     (∀ i, i < 2 → ∃ l r, refineTrace 2 (fun _ => 0) =
       l ++ [REvent.procrustes i, REvent.evalSentSim i 0,
             REvent.saveBest i 0] ++ r) ∧
     (predRun predReadyArgs).1.head? = some PEvent.reloadBest ∧
     (predRun predReadyArgs).1.countP PEvent.isWriteRecord = 0) :=
  ⟨by decide, by decide,
   C5_refine_loop_and_pred_reload 2 (fun _ => 0) predReadyArgs
     (by decide) (by decide)⟩

/-- The three phases `main` (lines 92-101) can dispatch after constructing
`AdvBert`. -/
inductive Phase
  | adversarial
  | refinement
  | predict
deriving DecidableEq

/-- Embedding of the phase dispatch of `main` (lines 92-101): construct
`AdvBert`, and if construction succeeded run `train_adv` iff
`--adversarial`, then `refine` iff `--n_refinement > 0`, then `pred` iff
`--pred`. -/
def mainPhases (args : Args) (isFile : String → Bool) : List Phase :=
  match (initRun args isFile).2 with
  | some _ => []
  | none =>
    (if args.adversarial then [Phase.adversarial] else []) ++
    (if 0 < args.n_refinement then [Phase.refinement] else []) ++
    (if args.pred then [Phase.predict] else [])

/-- C6: when construction succeeds, a run executes each phase at most once,
adversarial training iff the `--adversarial` flag is set, refinement iff
`--n_refinement > 0`, prediction iff `--pred` is set, and always in the
fixed order adversarial → refinement → prediction (the executed phase list
is a sublist of that order). -/
theorem C6_phases_fixed_order (args : Args) (isFile : String → Bool)
    (h : (initRun args isFile).2 = none) :
    List.Sublist (mainPhases args isFile)
      [Phase.adversarial, Phase.refinement, Phase.predict] ∧
    (Phase.adversarial ∈ mainPhases args isFile ↔ args.adversarial = true) ∧
    (Phase.refinement ∈ mainPhases args isFile ↔ 0 < args.n_refinement) ∧
    (Phase.predict ∈ mainPhases args isFile ↔ args.pred = true) ∧
    (mainPhases args isFile).count Phase.adversarial ≤ 1 ∧
    (mainPhases args isFile).count Phase.refinement ≤ 1 ∧
    (mainPhases args isFile).count Phase.predict ≤ 1 := by
  unfold mainPhases
  rw [h]
  by_cases ha : args.adversarial = true <;>
    by_cases hr : 0 < args.n_refinement <;>
      by_cases hp : args.pred = true <;>
        simp only [ha, hr, hp, if_pos, if_neg, if_true, if_false,
          Bool.not_eq_true] <;>
        refine ⟨by decide, ?_, ?_, ?_, by decide, by decide, by decide⟩ <;>
        simp_all

/-- Witness for C6: a successfully constructing configuration running all
three phases. -/
theorem C6_phases_fixed_order_witness :
    (initRun predReadyArgs (fun _ => true)).2 = none ∧
    (List.Sublist (mainPhases predReadyArgs (fun _ => true))
      [Phase.adversarial, Phase.refinement, Phase.predict] ∧
     (Phase.adversarial ∈ mainPhases predReadyArgs (fun _ => true) ↔
       predReadyArgs.adversarial = true) ∧
     (Phase.refinement ∈ mainPhases predReadyArgs (fun _ => true) ↔
       0 < predReadyArgs.n_refinement) ∧
     (Phase.predict ∈ mainPhases predReadyArgs (fun _ => true) ↔
       predReadyArgs.pred = true) ∧
     (mainPhases predReadyArgs (fun _ => true)).count Phase.adversarial ≤ 1 ∧
     (mainPhases predReadyArgs (fun _ => true)).count Phase.refinement ≤ 1 ∧
     (mainPhases predReadyArgs (fun _ => true)).count Phase.predict ≤ 1) :=
  ⟨by decide, C6_phases_fixed_order predReadyArgs (fun _ => true) (by decide)⟩

/-- C7: with adversarial training enabled, construction fails whenever the
input corpus file does not exist, with no dataset load, no model build and
no trainer build performed (hence before any batch); and `pred` fails
whenever `src_file` or `output_file` is missing, before `reload_best` is
invoked and before any output is written. -/
theorem C7_missing_required_inputs_fail_fast (args args2 : Args)
    (isFile : String → Bool) (hadv : args.adversarial = true)
    (hfile : ∀ f, args.input_file = some f → isFile f = false)
    (hpred : args2.src_file = none ∨ args2.output_file = none) :
    ((initRun args isFile).2 ≠ none ∧
     InitEvent.loadDataset ∉ (initRun args isFile).1 ∧
     InitEvent.buildModel ∉ (initRun args isFile).1 ∧
     InitEvent.buildTrainer ∉ (initRun args isFile).1) ∧
    ((predRun args2).2 ≠ none ∧ (predRun args2).1 = []) := by
  constructor
  · by_cases h1 : 0 ≤ args.dis_dropout ∧ args.dis_dropout < 1
    case neg => simp [initRun, h1]
    by_cases h2 : 0 ≤ args.dis_input_dropout ∧ args.dis_input_dropout < 1
    case neg => simp [initRun, h1, h2]
    by_cases h3 : 0 ≤ args.dis_smooth ∧ args.dis_smooth < mkRat 1 2
    case neg => simp [initRun, h1, h2, h3]
    by_cases h4 : 0 < args.dis_lambda ∧ 0 < args.dis_steps
    case neg => simp [initRun, h1, h2, h3, h4]
    by_cases h5 : 0 < args.lr_shrink ∧ args.lr_shrink ≤ 1
    case neg => simp [initRun, h1, h2, h3, h4, h5]
    by_cases h6 : args.adversarial = true ∧ args.model_path = none
    case pos => simp [initRun, h1, h2, h3, h4, h5, h6]
    have h7 : ¬ args.model_path = none := fun hm => h6 ⟨hadv, hm⟩
    cases hin : args.input_file with
    | none =>
      simp [initRun, h1, h2, h3, h4, h5, h6, h7, hadv, hin]
    | some f =>
      have hf := hfile f hin
      simp [initRun, h1, h2, h3, h4, h5, h6, h7, hadv, hin, hf]
  · rcases hpred with hs | ho
    · simp [predRun, hs]
    · by_cases hs : args2.src_file = none
      · simp [predRun, hs]
      · simp [predRun, hs, ho]

/-- Adversarial configuration whose corpus file is absent, used to witness
C7. -/
def missingCorpusArgs : Args :=
  { predReadyArgs with input_file := some "absent.txt" }

/-- Predict configuration missing its source file, used to witness C7. -/
def missingSrcArgs : Args :=
  { predReadyArgs with src_file := none }

/-- Witness for C7 at concrete configurations: adversarial run whose corpus
file does not exist on the (empty) file system, and a predict run with no
source file. -/
theorem C7_missing_required_inputs_fail_fast_witness :
    missingCorpusArgs.adversarial = true ∧
    (missingSrcArgs.src_file = none ∨ missingSrcArgs.output_file = none) ∧
    (((initRun missingCorpusArgs (fun _ => false)).2 ≠ none ∧
      InitEvent.loadDataset ∉ (initRun missingCorpusArgs (fun _ => false)).1 ∧
      InitEvent.buildModel ∉ (initRun missingCorpusArgs (fun _ => false)).1 ∧
      InitEvent.buildTrainer ∉ (initRun missingCorpusArgs (fun _ => false)).1) ∧
     ((predRun missingSrcArgs).2 ≠ none ∧ (predRun missingSrcArgs).1 = [])) :=
  ⟨rfl, Or.inl rfl,
   C7_missing_required_inputs_fail_fast missingCorpusArgs missingSrcArgs
     (fun _ => false) rfl (fun _ _ => rfl) (Or.inl rfl)⟩

/-- Names bound in the scope of `AdvBert.pred` under Python scoping rules:
the module-level bindings of `bert_gan.py` (the imports of lines 8-21 —
note line 12 binds only `OrderedDict`, not `collections` — and the
module-level defs `main` and `AdvBert`), the builtins the function uses,
and `pred`'s own local variables (assignment targets, `for`/`with`
targets and the parameter `self`). -/
def predScopeBoundNames : List String :=
  ["os", "time", "json", "argparse", "OrderedDict", "np", "torch",
   "bool_flag", "initialize_exp", "load", "build_model", "BertTrainer",
   "BertEvaluator", "DataLoader", "RandomSampler", "SequentialSampler",
   "main", "AdvBert",
   "open", "int", "enumerate", "round",
   "self", "unique_id_to_feature", "pred_sampler", "pred_dataloader",
   "writer", "input_ids", "input_mask", "example_indices",
   "all_encoder_layers", "_", "src_encoder_layer", "mapped_encoder_layer",
   "b", "example_index", "feature", "unique_id", "output_json",
   "all_out_features", "i", "token", "all_layers", "layer_output",
   "layers", "out_features"]

/-- Free names referenced by `AdvBert.pred` that no enclosing scope binds:
`load_single` (line 228), `pred_dataset` (lines 233-234), `features`
(line 246), `collections` (lines 249, 256, 262), `layer_index`
(line 257). -/
def predUnboundNames : List String :=
  ["load_single", "pred_dataset", "features", "collections", "layer_index"]

/-- C9: `pred` references `load_single`, `pred_dataset`, `features`,
`collections` and `layer_index`, none of which is bound in its scope; so
every invocation that passes the `src_file`/`output_file` asserts raises a
`NameError` (on `load_single`, the first such name evaluated) and never
writes a complete output record. -/
theorem C9_pred_reaches_unresolved_name (args : Args)
    (h1 : args.src_file ≠ none) (h2 : args.output_file ≠ none) :
    (∀ n ∈ predUnboundNames, n ∉ predScopeBoundNames) ∧
    (predRun args).2 = some (PError.nameError "load_single") ∧
    (predRun args).1.countP PEvent.isWriteRecord = 0 := by
  refine ⟨by decide, ?_, ?_⟩ <;> rw [predRun, if_neg h1, if_neg h2]
  rfl

/-- Witness for C9 at concrete predict arguments. -/
theorem C9_pred_reaches_unresolved_name_witness :
    predReadyArgs.src_file ≠ none ∧ predReadyArgs.output_file ≠ none ∧
    ((∀ n ∈ predUnboundNames, n ∉ predScopeBoundNames) ∧
     (predRun predReadyArgs).2 = some (PError.nameError "load_single") ∧
     (predRun predReadyArgs).1.countP PEvent.isWriteRecord = 0) :=
  ⟨by decide, by decide,
   C9_pred_reaches_unresolved_name predReadyArgs (by decide) (by decide)⟩

/-- C8 record: on any invocation of `pred` passing its preconditions —
here the concrete `predReadyArgs` — the code raises `NameError` on
`load_single` immediately after `reload_best` and writes no output record
at all, so no record carrying `linex_index` and 6-decimal-rounded vector
values is ever produced, contrary to the documented output contract. -/
theorem C8_pred_never_produces_records :
    predRun predReadyArgs =
      ([PEvent.reloadBest], some (PError.nameError "load_single")) ∧
    (predRun predReadyArgs).1.countP PEvent.isWriteRecord = 0 := by
  constructor <;> decide

/-- C10: constructing `AdvBert` with `--adversarial` disabled always
fails: the trainer is never built, and whenever the configuration passes
the range asserts the failure is precisely the `AttributeError` raised at
line 125 because `self.dataset` was only assigned inside the
`if self.args.adversarial` branch. -/
theorem C10_non_adversarial_construction_fails (args : Args)
    (isFile : String → Bool) (h : args.adversarial = false) :
    (initRun args isFile).2 ≠ none ∧
    InitEvent.buildTrainer ∉ (initRun args isFile).1 ∧
    (¬ configOutOfRange args →
      initRun args isFile = ([InitEvent.initExp, InitEvent.buildModel],
        some InitError.attributeErrorDataset)) := by
  by_cases h1 : 0 ≤ args.dis_dropout ∧ args.dis_dropout < 1
  case neg =>
    exact ⟨by simp [initRun, h1], by simp [initRun, h1],
      fun hc => absurd (Or.inl h1) hc⟩
  by_cases h2 : 0 ≤ args.dis_input_dropout ∧ args.dis_input_dropout < 1
  case neg =>
    exact ⟨by simp [initRun, h1, h2], by simp [initRun, h1, h2],
      fun hc => absurd (Or.inr (Or.inl h2)) hc⟩
  by_cases h3 : 0 ≤ args.dis_smooth ∧ args.dis_smooth < mkRat 1 2
  case neg =>
    exact ⟨by simp [initRun, h1, h2, h3], by simp [initRun, h1, h2, h3],
      fun hc => absurd (Or.inr (Or.inr (Or.inl h3))) hc⟩
  by_cases h4 : 0 < args.dis_lambda ∧ 0 < args.dis_steps
  case neg =>
    refine ⟨by simp [initRun, h1, h2, h3, h4],
      by simp [initRun, h1, h2, h3, h4], fun hc => ?_⟩
    rcases not_and_or.mp h4 with hl | hs
    · exact absurd (Or.inr (Or.inr (Or.inr (Or.inl (not_lt.mp hl))))) hc
    · exact absurd (Or.inr (Or.inr (Or.inr (Or.inr (Or.inl (not_lt.mp hs)))))) hc
  by_cases h5 : 0 < args.lr_shrink ∧ args.lr_shrink ≤ 1
  case neg =>
    exact ⟨by simp [initRun, h1, h2, h3, h4, h5],
      by simp [initRun, h1, h2, h3, h4, h5],
      fun hc => absurd (Or.inr (Or.inr (Or.inr (Or.inr (Or.inr h5))))) hc⟩
  have heq : initRun args isFile =
      ([InitEvent.initExp, InitEvent.buildModel],
        some InitError.attributeErrorDataset) := by
    rw [initRun, if_pos h1, if_pos h2, if_pos h3, if_pos h4, if_pos h5,
      if_neg (by simp [h]), if_neg (by simp [h])]
  rw [heq]
  exact ⟨by simp, by decide, fun _ => rfl⟩

/-- Configuration with `--adversarial` disabled (a refinement/prediction
only run), used to witness C10. -/
def nonAdvArgs : Args :=
  { predReadyArgs with adversarial := false }

/-- Witness for C10 at a concrete in-range non-adversarial configuration. -/
theorem C10_non_adversarial_construction_fails_witness :
    nonAdvArgs.adversarial = false ∧
    ((initRun nonAdvArgs (fun _ => true)).2 ≠ none ∧
     InitEvent.buildTrainer ∉ (initRun nonAdvArgs (fun _ => true)).1 ∧
     (¬ configOutOfRange nonAdvArgs →
       initRun nonAdvArgs (fun _ => true) =
         ([InitEvent.initExp, InitEvent.buildModel],
           some InitError.attributeErrorDataset))) :=
  ⟨rfl, C10_non_adversarial_construction_fails nonAdvArgs (fun _ => true) rfl⟩

end BertGan
